import Mathlib

/-!
Shallow embedding of `django_search_views/search.py`.

The generic record-matching primitive of the ORM (how a field lookup such
as `email__icontains` matches a record against a query string) is external
to the repository, so it is a parameter `m : String → String → Record → Bool`
(lookup, query string, record).  Querysets and model default managers are
embedded as lists of records; `Q` objects are the inductive `QExpr`; the
single exception class `InvalidConfiguration` is the error type of an
`Except` monad, carrying its message string.
-/

namespace DjangoSearchViews

/-- The single exception class of `search.py` (`class InvalidConfiguration`),
carrying the message it is raised with. -/
inductive SearchError where
  | invalidConfiguration (msg : String)
deriving DecidableEq, Repr

/-- Django `Q` objects as built by `get_results`: atomic fragments
`Q(**{lookup: query_string})` combined with `operator.or_`. -/
inductive QExpr where
  | atom (lookup : String) (value : String)
  | orQ (a b : QExpr)
deriving DecidableEq, Repr

/-- Semantics of a `Q` object against one record, given the external ORM
match primitive `m`. -/
def QExpr.matches {Record : Type} (m : String → String → Record → Bool) :
    QExpr → Record → Bool
  | .atom lk v, r => m lk v r
  | .orQ a b, r => QExpr.matches m a r || QExpr.matches m b r

/-- `functools.reduce(operator.or_, ...)` on a non-empty sequence: the first
element is the initial accumulator, the rest are folded in from the left. -/
def reduce_or (x : QExpr) (xs : List QExpr) : QExpr :=
  xs.foldl QExpr.orQ x

/-- A `SearchCategory` as configured by class attributes: `queryset` and
`model` may each be set or absent (`hasattr` / `AttributeError` become
`Option`), as may `lookups`.  `name` is `type(self).__name__`.  Building
this structure never validates anything, mirroring that Python class
definition and instantiation perform no configuration checks. -/
structure SearchCategory (Record : Type) where
  name : String
  queryset : Option (List Record)
  model : Option (List Record)
  lookups : Option (List String)

/-- `SearchCategory.get_results(cleaned_data, request)`, lines 97-116 of
`search.py`: resolve `queryset` (falling back to `model._default_manager.all()`),
fetch `lookups` — an `AttributeError` in either becomes
`InvalidConfiguration("<name>: You need to define model/queryset and lookups, ...")` —
then reject empty `lookups`, then filter the queryset by the OR-reduce of
`Q(lookup=q)` fragments. -/
def get_results {Record : Type} (m : String → String → Record → Bool)
    (cat : SearchCategory Record) (q : String) : Except SearchError (List Record) :=
  match (match cat.queryset with
         | some qs => some qs
         | none => cat.model) with
  | none =>
      .error (.invalidConfiguration
        (cat.name ++ ": You need to define model/queryset and lookups, or override get_results()"))
  | some queryset =>
      match cat.lookups with
      | none =>
          .error (.invalidConfiguration
            (cat.name ++ ": You need to define model/queryset and lookups, or override get_results()"))
      | some lookups =>
          match lookups with
          | [] => .error (.invalidConfiguration (cat.name ++ ": lookups is empty"))
          | l :: ls =>
              let qexpr := reduce_or (QExpr.atom l q) (ls.map (fun lk => QExpr.atom lk q))
              .ok (queryset.filter (fun r => qexpr.matches m r))

/-- The validated form data of a search request: field `q` (the query text)
plus the optional category selector of `CategorySearchForm`.  Produced by
the external form-validation layer. -/
structure CleanedData where
  q : String
  category : Option Int
deriving DecidableEq, Repr

/-- An entry of `Search.categories`: either a `SearchCategory` instance used
directly, or a callable (class or factory) that the view invokes with no
arguments to obtain the instance. -/
inductive CatEntry (Record : Type) where
  | direct (c : SearchCategory Record)
  | factory (f : Unit → SearchCategory Record)

/-- Lines 215-218 of `search.py`: `if callable(c): c = c()`. -/
def resolveEntry {Record : Type} : CatEntry Record → SearchCategory Record
  | .direct c => c
  | .factory f => f ()

/-- The loop of `Search.results_view`'s inner view (lines 214-219): for each
configured entry, resolve callables, call `get_results`, and append the pair
`(c, results)`.  An exception from any category propagates (no `try` around
the loop), aborting with no partial list. -/
def run_categories {Record : Type} (m : String → String → Record → Bool)
    (q : String) : List (CatEntry Record) →
    Except SearchError (List (SearchCategory Record × List Record))
  | [] => .ok []
  | e :: rest =>
      match get_results m (resolveEntry e) q with
      | .error err => .error err
      | .ok rs =>
          match run_categories m q rest with
          | .error err => .error err
          | .ok tail => .ok ((resolveEntry e, rs) :: tail)

/-- Observation of the same control flow as `run_categories`: how many
`get_results` calls the loop performs before returning or raising. -/
def run_categories_calls {Record : Type} (m : String → String → Record → Bool)
    (q : String) : List (CatEntry Record) → Nat
  | [] => 0
  | e :: rest =>
      match get_results m (resolveEntry e) q with
      | .error _ => 1
      | .ok _ => 1 + run_categories_calls m q rest

/-- Body of the view returned by `Search.results_view` (lines 208-225):
`formData = none` models `form.is_valid()` returning false, in which case
`results` stays `[]` and `query` stays `None`; otherwise the category loop
runs and `query = form.cleaned_data`.  The output is the `(results,
query_data)` part of the template context. -/
def results_view_body {Record : Type} (m : String → String → Record → Bool)
    (cats : List (CatEntry Record)) (formData : Option CleanedData) :
    Except SearchError (List (SearchCategory Record × List Record) × Option CleanedData) :=
  match formData with
  | none => .ok ([], none)
  | some d =>
      match run_categories m d.q cats with
      | .error err => .error err
      | .ok pairs => .ok (pairs, some d)

/-- Number of `get_results` invocations performed by one call of the view
body. -/
def results_view_calls {Record : Type} (m : String → String → Record → Bool)
    (cats : List (CatEntry Record)) (formData : Option CleanedData) : Nat :=
  match formData with
  | none => 0
  | some d => run_categories_calls m d.q cats

/-- A `Search` class: its `categories` attribute may be absent
(`hasattr(cls, 'categories')` fails) or set to a list of entries. -/
structure Search (Record : Type) where
  categories : Option (List (CatEntry Record))

/-- `Search.results_view()` (lines 206-229): the `hasattr` check runs when
the view is created — `InvalidConfiguration('No categories defined')` if the
`categories` attribute is absent — and the returned view maps validated (or
invalid) form data to the `(results, query_data)` context. -/
def results_view {Record : Type} (m : String → String → Record → Bool)
    (s : Search Record) :
    Except SearchError (Option CleanedData →
      Except SearchError (List (SearchCategory Record × List Record) × Option CleanedData)) :=
  match s.categories with
  | none => .error (.invalidConfiguration "No categories defined")
  | some cats => .ok (fun formData => results_view_body m cats formData)

/-! ### Concrete instances used by witnesses -/

/-- A concrete record type for witnesses: a list of field/value pairs. -/
def FieldMap : Type := List (String × String)

/-- A concrete ORM match primitive for witnesses: lookup `lk` matches record
`r` for query `q` iff `r` has the field `lk` with value exactly `q`. -/
def matchFn (lk q : String) (r : FieldMap) : Bool :=
  r.any (fun p => p.1 == lk && p.2 == q)

/-- Concrete records for witnesses. -/
def recAnn : FieldMap := [("name", "ann")]

/-- Concrete record matched through its `email` field. -/
def recAnnMail : FieldMap := [("name", "bob"), ("email", "ann")]

/-- Concrete record matching no lookup for query `"ann"`. -/
def recBob : FieldMap := [("name", "bob")]

/-- Concrete queryset for witnesses. -/
def qsPeople : List FieldMap := [recAnn, recAnnMail, recBob]

/-- A well-configured concrete category. -/
def catPeople : SearchCategory FieldMap :=
  ⟨"People", some qsPeople, none, some ["name", "email"]⟩

/-- A well-configured concrete category that finds zero results for `"ann"`. -/
def catPhones : SearchCategory FieldMap :=
  ⟨"Phones", some qsPeople, none, some ["phone"]⟩

/-- A concrete category with no data source configured. -/
def catBroken : SearchCategory FieldMap :=
  ⟨"Broken", none, none, some ["name"]⟩

/-- A concrete category whose lookups list is configured but empty. -/
def catNoLookups : SearchCategory FieldMap :=
  ⟨"NoLookups", some qsPeople, none, some []⟩

/-- A concrete zero-argument callable producing `catPeople`, as a class or
factory entry of `categories` would. -/
def factPeople : Unit → SearchCategory FieldMap := fun _ => catPeople

/-- A concrete `Search` with two well-configured categories. -/
def searchTwo : Search FieldMap :=
  ⟨some [.direct catPeople, .direct catPhones]⟩

/-- A concrete `Search` whose `categories` attribute is an empty list. -/
def searchEmptyCats : Search FieldMap := ⟨some []⟩

/-- A concrete `Search` whose `categories` attribute is absent. -/
def searchNoCats : Search FieldMap := ⟨none⟩

/-- Concrete validated form data without a category selector. -/
def dataAnn : CleanedData := ⟨"ann", none⟩

/-- Concrete validated form data carrying a category selector. -/
def dataAnnSel : CleanedData := ⟨"ann", some 1⟩

/-! ### Helper lemmas -/

lemma matches_reduce_or {Record : Type} (m : String → String → Record → Bool)
    (xs : List QExpr) (x : QExpr) (r : Record) :
    (reduce_or x xs).matches m r = (x.matches m r || xs.any (fun e => e.matches m r)) := by
  unfold reduce_or
  induction xs generalizing x with
  | nil => simp
  | cons y ys ih =>
      simp only [List.foldl_cons, List.any_cons, ih (x.orQ y), QExpr.matches, Bool.or_assoc]

lemma get_results_queryset_eq {Record : Type} (m : String → String → Record → Bool)
    (cat : SearchCategory Record) (qs : List Record) (l : String) (ls : List String)
    (q : String) (hqs : cat.queryset = some qs) (hlk : cat.lookups = some (l :: ls)) :
    get_results m cat q =
      .ok (qs.filter (fun r =>
        (reduce_or (QExpr.atom l q) (ls.map (fun lk => QExpr.atom lk q))).matches m r)) := by
  unfold get_results
  rw [hqs, hlk]

lemma mem_get_results {Record : Type} (m : String → String → Record → Bool)
    (cat : SearchCategory Record) (qs : List Record) (lookups : List String) (q : String)
    (hqs : cat.queryset = some qs) (hlk : cat.lookups = some lookups) (hne : lookups ≠ []) :
    ∃ res, get_results m cat q = .ok res ∧
      ∀ r, r ∈ res ↔ (r ∈ qs ∧ ∃ lk ∈ lookups, m lk q r = true) := by
  match lookups, hne with
  | l :: ls, _ =>
      refine ⟨_, get_results_queryset_eq m cat qs l ls q hqs hlk, ?_⟩
      intro r
      rw [List.mem_filter, matches_reduce_or]
      simp [QExpr.matches, List.any_map, Function.comp, List.any_eq_true]

lemma run_categories_ok {Record : Type} (m : String → String → Record → Bool)
    (q : String) (cats : List (CatEntry Record))
    (h : ∀ e ∈ cats, ∃ rs, get_results m (resolveEntry e) q = .ok rs) :
    ∃ pairs, run_categories m q cats = .ok pairs ∧
      pairs.map Prod.fst = cats.map resolveEntry := by
  induction cats with
  | nil => exact ⟨[], rfl, rfl⟩
  | cons e rest ih =>
      obtain ⟨rs, hrs⟩ := h e (List.mem_cons_self e rest)
      obtain ⟨tail, htail, hmap⟩ := ih (fun x hx => h x (List.mem_cons_of_mem e hx))
      refine ⟨(resolveEntry e, rs) :: tail, ?_, ?_⟩
      · simp only [run_categories]
        rw [hrs, htail]
      · simp [hmap]

/-! ### Claim theorems -/

/-- C1: for every non-empty lookup list and every query text, the predicate
built by `get_results` (the OR-reduce over `Q(lookup=q)` fragments) keeps a
record iff at least one lookup matches it, and permuting the lookup list
does not change which records are in the result set. -/
theorem get_results_or_semantics {Record : Type} (m : String → String → Record → Bool)
    (cat : SearchCategory Record) (qs : List Record) (lookups : List String) (q : String)
    (hqs : cat.queryset = some qs) (hlk : cat.lookups = some lookups)
    (hne : lookups ≠ []) :
    ∃ res, get_results m cat q = .ok res ∧
      (∀ r, r ∈ res ↔ (r ∈ qs ∧ ∃ lk ∈ lookups, m lk q r = true)) ∧
      ∀ lookups2, lookups.Perm lookups2 →
        ∃ res2, get_results m { cat with lookups := some lookups2 } q = .ok res2 ∧
          ∀ r, (r ∈ res2 ↔ r ∈ res) := by
  obtain ⟨res, hres, hmem⟩ := mem_get_results m cat qs lookups q hqs hlk hne
  refine ⟨res, hres, hmem, ?_⟩
  intro lookups2 hperm
  have hne2 : lookups2 ≠ [] := by
    intro hnil
    exact hne (List.Perm.eq_nil (hnil ▸ hperm))
  obtain ⟨res2, hres2, hmem2⟩ :=
    mem_get_results m { cat with lookups := some lookups2 } qs lookups2 q hqs rfl hne2
  refine ⟨res2, hres2, ?_⟩
  intro r
  rw [hmem r, hmem2 r]
  constructor
  · rintro ⟨hq, lk, hlkmem, hm⟩
    exact ⟨hq, lk, (hperm.mem_iff).mpr hlkmem, hm⟩
  · rintro ⟨hq, lk, hlkmem, hm⟩
    exact ⟨hq, lk, (hperm.mem_iff).mp hlkmem, hm⟩

/-- Witness for C1 at the concrete `catPeople` with query `"ann"`. -/
theorem get_results_or_semantics_witness :
    catPeople.queryset = some qsPeople ∧ catPeople.lookups = some ["name", "email"] ∧
    ["name", "email"] ≠ ([] : List String) ∧
    ∃ res, get_results matchFn catPeople "ann" = .ok res ∧
      (∀ r, r ∈ res ↔ (r ∈ qsPeople ∧ ∃ lk ∈ ["name", "email"], matchFn lk "ann" r = true)) ∧
      ∀ lookups2, (["name", "email"] : List String).Perm lookups2 →
        ∃ res2, get_results matchFn { catPeople with lookups := some lookups2 } "ann" = .ok res2 ∧
          ∀ r, (r ∈ res2 ↔ r ∈ res) :=
  ⟨rfl, rfl, by decide,
    get_results_or_semantics matchFn catPeople qsPeople ["name", "email"] "ann" rfl rfl (by decide)⟩

/-- C3: a `SearchCategory` whose lookups list is configured but empty fails
with `InvalidConfiguration` for every query text (the message names the
category: it always starts with the category name). -/
theorem empty_lookups_invalid_configuration {Record : Type}
    (m : String → String → Record → Bool) (cat : SearchCategory Record) (q : String)
    (h : cat.lookups = some []) :
    ∃ msg, get_results m cat q = .error (.invalidConfiguration msg) ∧
      ∃ suffix, msg = cat.name ++ suffix := by
  unfold get_results
  rw [h]
  cases hq : cat.queryset with
  | some l => exact ⟨cat.name ++ ": lookups is empty", rfl, ": lookups is empty", rfl⟩
  | none =>
      cases hm : cat.model with
      | some l => exact ⟨cat.name ++ ": lookups is empty", rfl, ": lookups is empty", rfl⟩
      | none =>
          exact ⟨cat.name ++ ": You need to define model/queryset and lookups, or override get_results()",
            rfl, ": You need to define model/queryset and lookups, or override get_results()", rfl⟩

/-- Witness for C3 at the concrete `catNoLookups` with query `"ann"`. -/
theorem empty_lookups_invalid_configuration_witness :
    catNoLookups.lookups = some [] ∧
    ∃ msg, get_results matchFn catNoLookups "ann" = .error (.invalidConfiguration msg) ∧
      ∃ suffix, msg = catNoLookups.name ++ suffix :=
  ⟨rfl, empty_lookups_invalid_configuration matchFn catNoLookups "ann" rfl⟩

/-- C4: a `SearchCategory` missing its data source (neither `queryset` nor
`model` set) or missing its `lookups` is constructed without any check — the
structure literal stores the given fields unvalidated — and the
`InvalidConfiguration` error is produced by `get_results`, with a message
that names the category (it starts with the category name). -/
theorem missing_config_lazy_error {Record : Type} (m : String → String → Record → Bool)
    (name : String) (qs md : Option (List Record)) (lk : Option (List String)) (q : String)
    (h : (qs = none ∧ md = none) ∨ lk = none) :
    (SearchCategory.mk name qs md lk).name = name ∧
    (SearchCategory.mk name qs md lk).queryset = qs ∧
    (SearchCategory.mk name qs md lk).model = md ∧
    (SearchCategory.mk name qs md lk).lookups = lk ∧
    get_results m (SearchCategory.mk name qs md lk) q =
      .error (.invalidConfiguration
        (name ++ ": You need to define model/queryset and lookups, or override get_results()")) := by
  refine ⟨rfl, rfl, rfl, rfl, ?_⟩
  rcases h with ⟨hqs, hmd⟩ | hlk
  · subst hqs; subst hmd; rfl
  · subst hlk
    cases qs with
    | some l => rfl
    | none =>
        cases md with
        | some l => rfl
        | none => rfl

/-- Witness for C4 at a concrete category with no data source, and the
concrete message (which starts with the category name `Broken`). -/
theorem missing_config_lazy_error_witness :
    (((none : Option (List FieldMap)) = none ∧ (none : Option (List FieldMap)) = none) ∨
      (some ["name"] : Option (List String)) = none) ∧
    ((SearchCategory.mk "Broken" (none : Option (List FieldMap)) none (some ["name"])).name = "Broken" ∧
     (SearchCategory.mk "Broken" (none : Option (List FieldMap)) none (some ["name"])).queryset = none ∧
     (SearchCategory.mk "Broken" (none : Option (List FieldMap)) none (some ["name"])).model = none ∧
     (SearchCategory.mk "Broken" (none : Option (List FieldMap)) none (some ["name"])).lookups = some ["name"] ∧
     get_results matchFn (SearchCategory.mk "Broken" (none : Option (List FieldMap)) none (some ["name"])) "ann" =
       .error (.invalidConfiguration
         ("Broken" ++ ": You need to define model/queryset and lookups, or override get_results()"))) :=
  ⟨Or.inl ⟨rfl, rfl⟩,
    missing_config_lazy_error matchFn "Broken" none none (some ["name"]) "ann" (Or.inl ⟨rfl, rfl⟩)⟩

/-- C2: a composite search with a configured category list, applied to a
valid query on which every configured category succeeds, yields exactly one
`(category, result-set)` pair per configured category, in configuration
order (the pairs' first components are exactly the resolved entries, in
order), regardless of how many records each category finds. -/
theorem composite_one_pair_per_category {Record : Type}
    (m : String → String → Record → Bool) (cats : List (CatEntry Record)) (d : CleanedData)
    (h : ∀ e ∈ cats, ∃ rs, get_results m (resolveEntry e) d.q = .ok rs) :
    ∃ view pairs, results_view m ⟨some cats⟩ = .ok view ∧
      view (some d) = .ok (pairs, some d) ∧
      pairs.map Prod.fst = cats.map resolveEntry ∧
      pairs.length = cats.length := by
  obtain ⟨pairs, hrun, hmap⟩ := run_categories_ok m d.q cats h
  refine ⟨_, pairs, rfl, ?_, hmap, ?_⟩
  · show results_view_body m cats (some d) = .ok (pairs, some d)
    simp only [results_view_body]
    rw [hrun]
  · have hlen := congrArg List.length hmap
    simpa using hlen

/-- Witness for C2 at the concrete two-category search, where the second
category finds zero results. -/
theorem composite_one_pair_per_category_witness :
    (∀ e ∈ [CatEntry.direct catPeople, CatEntry.direct catPhones],
      ∃ rs, get_results matchFn (resolveEntry e) dataAnn.q = .ok rs) ∧
    ∃ view pairs,
      results_view matchFn ⟨some [CatEntry.direct catPeople, CatEntry.direct catPhones]⟩ = .ok view ∧
      view (some dataAnn) = .ok (pairs, some dataAnn) ∧
      pairs.map Prod.fst =
        [CatEntry.direct catPeople, CatEntry.direct catPhones].map resolveEntry ∧
      pairs.length = [CatEntry.direct catPeople, CatEntry.direct catPhones].length := by
  have h : ∀ e ∈ [CatEntry.direct catPeople, CatEntry.direct catPhones],
      ∃ rs, get_results matchFn (resolveEntry e) dataAnn.q = .ok rs := by
    intro e he
    simp only [List.mem_cons, List.not_mem_nil, or_false] at he
    rcases he with rfl | rfl
    · exact ⟨[recAnn, recAnnMail], rfl⟩
    · exact ⟨[], rfl⟩
  exact ⟨h, composite_one_pair_per_category matchFn _ dataAnn h⟩

/-- C5: for every configured category list, when the incoming query fails
validation (`form.is_valid()` is false, modelled by `formData = none`), the
view body returns an empty result list with no query data, and performs zero
`get_results` invocations. -/
theorem invalid_query_empty_no_calls {Record : Type}
    (m : String → String → Record → Bool) (cats : List (CatEntry Record)) :
    results_view_body m cats none = .ok ([], none) ∧
    results_view_calls m cats none = 0 :=
  ⟨rfl, rfl⟩

/-- C6 counterexample: a `Search` configured with an EMPTY category list does
NOT fail — `results_view` succeeds, and the view it returns answers a valid
query with an empty pair list instead of raising `InvalidConfiguration`. -/
theorem empty_categories_no_error :
    (results_view matchFn searchEmptyCats).isOk = true ∧
    (results_view matchFn searchEmptyCats).map (fun view => view (some dataAnn)) =
      .ok (.ok ([], some dataAnn)) :=
  ⟨rfl, rfl⟩

/-- C6 amended: creating the composite results view fails with
`InvalidConfiguration` exactly when the `categories` attribute is absent; a
present list — even an empty one — is accepted and yields the view. -/
theorem categories_checked_for_absence_only {Record : Type}
    (m : String → String → Record → Bool) (s : Search Record) :
    (s.categories = none →
      results_view m s = .error (.invalidConfiguration "No categories defined")) ∧
    ∀ cats, s.categories = some cats →
      results_view m s = .ok (fun formData => results_view_body m cats formData) := by
  constructor
  · intro h
    unfold results_view
    rw [h]
  · intro cats h
    unfold results_view
    rw [h]

/-- Witness for C6 (amended) at the concrete searches with absent and empty
`categories`. -/
theorem categories_checked_for_absence_only_witness :
    results_view matchFn searchNoCats = .error (.invalidConfiguration "No categories defined") ∧
    results_view matchFn searchEmptyCats =
      .ok (fun formData => results_view_body matchFn [] formData) :=
  ⟨(categories_checked_for_absence_only matchFn searchNoCats).1 rfl,
   (categories_checked_for_absence_only matchFn searchEmptyCats).2 [] rfl⟩

/-- C7 counterexample: with two configured categories and a query carrying a
category selector (`dataAnnSel` selects category 1), the composite results
view still produces TWO pairs, not one, and performs TWO `get_results`
invocations — the non-selected category is queried as well. -/
theorem category_selector_not_honored :
    (results_view_body matchFn [CatEntry.direct catPeople, CatEntry.direct catPhones]
        (some dataAnnSel)).map (fun p => p.1.length) = .ok 2 ∧
    results_view_calls matchFn [CatEntry.direct catPeople, CatEntry.direct catPhones]
        (some dataAnnSel) = 2 :=
  ⟨rfl, rfl⟩

/-- C7 amended: the composite results view ignores any category selector
carried by the query: it produces the same pairs for any selector value (one
pair per configured category), rather than restricting to the selected
category. -/
theorem category_selector_ignored {Record : Type}
    (m : String → String → Record → Bool) (cats : List (CatEntry Record))
    (q : String) (sel sel2 : Option Int)
    (h : ∀ e ∈ cats, ∃ rs, get_results m (resolveEntry e) q = .ok rs) :
    ∃ pairs, results_view_body m cats (some ⟨q, sel⟩) = .ok (pairs, some ⟨q, sel⟩) ∧
      results_view_body m cats (some ⟨q, sel2⟩) = .ok (pairs, some ⟨q, sel2⟩) ∧
      pairs.length = cats.length := by
  obtain ⟨pairs, hrun, hmap⟩ := run_categories_ok m q cats h
  refine ⟨pairs, ?_, ?_, ?_⟩
  · simp only [results_view_body]
    rw [hrun]
  · simp only [results_view_body]
    rw [hrun]
  · have hlen := congrArg List.length hmap
    simpa using hlen

/-- Witness for C7 (amended) at the concrete two-category search, comparing
selector `some 1` against no selector. -/
theorem category_selector_ignored_witness :
    (∀ e ∈ [CatEntry.direct catPeople, CatEntry.direct catPhones],
      ∃ rs, get_results matchFn (resolveEntry e) "ann" = .ok rs) ∧
    ∃ pairs,
      results_view_body matchFn [CatEntry.direct catPeople, CatEntry.direct catPhones]
        (some ⟨"ann", some 1⟩) = .ok (pairs, some ⟨"ann", some 1⟩) ∧
      results_view_body matchFn [CatEntry.direct catPeople, CatEntry.direct catPhones]
        (some ⟨"ann", none⟩) = .ok (pairs, some ⟨"ann", none⟩) ∧
      pairs.length = [CatEntry.direct catPeople, CatEntry.direct catPhones].length := by
  have h : ∀ e ∈ [CatEntry.direct catPeople, CatEntry.direct catPhones],
      ∃ rs, get_results matchFn (resolveEntry e) "ann" = .ok rs := by
    intro e he
    simp only [List.mem_cons, List.not_mem_nil, or_false] at he
    rcases he with rfl | rfl
    · exact ⟨[recAnn, recAnnMail], rfl⟩
    · exact ⟨[], rfl⟩
  exact ⟨h, category_selector_ignored matchFn _ "ann" (some 1) none h⟩

lemma run_categories_error {Record : Type} (m : String → String → Record → Bool)
    (q : String) (pre post : List (CatEntry Record)) (e : CatEntry Record)
    (err : SearchError)
    (hpre : ∀ x ∈ pre, ∃ rs, get_results m (resolveEntry x) q = .ok rs)
    (he : get_results m (resolveEntry e) q = .error err) :
    run_categories m q (pre ++ e :: post) = .error err := by
  induction pre with
  | nil =>
      simp only [List.nil_append, run_categories]
      rw [he]
  | cons x xs ih =>
      obtain ⟨rs, hrs⟩ := hpre x (List.mem_cons_self x xs)
      have h2 := ih (fun y hy => hpre y (List.mem_cons_of_mem x hy))
      simp only [List.cons_append, run_categories]
      rw [hrs]
      simp only [List.append_eq]
      rw [h2]

/-- C8: during a composite search over a valid query, an
`InvalidConfiguration` raised by any category's `get_results` is not caught:
whenever the categories before the failing one succeed, the view body
returns exactly that error and no partial pair list. -/
theorem config_error_propagates {Record : Type} (m : String → String → Record → Bool)
    (pre post : List (CatEntry Record)) (e : CatEntry Record) (d : CleanedData)
    (err : SearchError)
    (hpre : ∀ x ∈ pre, ∃ rs, get_results m (resolveEntry x) d.q = .ok rs)
    (he : get_results m (resolveEntry e) d.q = .error err) :
    results_view_body m (pre ++ e :: post) (some d) = .error err := by
  simp only [results_view_body]
  rw [run_categories_error m d.q pre post e err hpre he]

/-- Witness for C8: a broken category between two healthy ones aborts the
whole composite search with its own configuration error. -/
theorem config_error_propagates_witness :
    (∀ x ∈ [CatEntry.direct catPeople],
      ∃ rs, get_results matchFn (resolveEntry x) dataAnn.q = .ok rs) ∧
    get_results matchFn (resolveEntry (CatEntry.direct catBroken)) dataAnn.q =
      .error (.invalidConfiguration
        "Broken: You need to define model/queryset and lookups, or override get_results()") ∧
    results_view_body matchFn
        ([CatEntry.direct catPeople] ++ CatEntry.direct catBroken :: [CatEntry.direct catPhones])
        (some dataAnn) =
      .error (.invalidConfiguration
        "Broken: You need to define model/queryset and lookups, or override get_results()") := by
  have hpre : ∀ x ∈ [CatEntry.direct catPeople],
      ∃ rs, get_results matchFn (resolveEntry x) dataAnn.q = .ok rs := by
    intro x hx
    simp only [List.mem_cons, List.not_mem_nil, or_false] at hx
    rcases hx with rfl
    exact ⟨[recAnn, recAnnMail], rfl⟩
  exact ⟨hpre, rfl,
    config_error_propagates matchFn [CatEntry.direct catPeople] [CatEntry.direct catPhones]
      (CatEntry.direct catBroken) dataAnn
      (.invalidConfiguration
        "Broken: You need to define model/queryset and lookups, or override get_results()")
      hpre rfl⟩

/-- C9: when a category defines both `queryset` and `model`, `get_results`
filters the configured queryset and never consults `model` (the result is
the same for any value of the `model` field); the model's full collection is
filtered only when no `queryset` is set. -/
theorem queryset_overrides_model {Record : Type} (m : String → String → Record → Bool)
    (name : String) (qs : List Record) (md md2 : Option (List Record))
    (lk : Option (List String)) (q : String) :
    (get_results m ⟨name, some qs, md, lk⟩ q = get_results m ⟨name, some qs, md2, lk⟩ q) ∧
    ∀ l ls, lk = some (l :: ls) →
      (get_results m ⟨name, some qs, md, lk⟩ q =
        .ok (qs.filter (fun r =>
          (reduce_or (QExpr.atom l q) (ls.map (fun lk2 => QExpr.atom lk2 q))).matches m r))) ∧
      ∀ mrecs, get_results m ⟨name, none, some mrecs, lk⟩ q =
        .ok (mrecs.filter (fun r =>
          (reduce_or (QExpr.atom l q) (ls.map (fun lk2 => QExpr.atom lk2 q))).matches m r)) := by
  refine ⟨rfl, ?_⟩
  intro l ls hlk
  subst hlk
  exact ⟨rfl, fun mrecs => rfl⟩

/-- Witness for C9 at concrete categories with both attributes set. -/
theorem queryset_overrides_model_witness :
    (get_results matchFn ⟨"People", some qsPeople, some [recBob], some ["name", "email"]⟩ "ann" =
      get_results matchFn ⟨"People", some qsPeople, none, some ["name", "email"]⟩ "ann") ∧
    (get_results matchFn ⟨"People", some qsPeople, some [recBob], some ["name", "email"]⟩ "ann" =
      .ok (qsPeople.filter (fun r =>
        (reduce_or (QExpr.atom "name" "ann")
          (["email"].map (fun lk2 => QExpr.atom lk2 "ann"))).matches matchFn r))) ∧
    get_results matchFn ⟨"People", none, some qsPeople, some ["name", "email"]⟩ "ann" =
      .ok (qsPeople.filter (fun r =>
        (reduce_or (QExpr.atom "name" "ann")
          (["email"].map (fun lk2 => QExpr.atom lk2 "ann"))).matches matchFn r)) :=
  ⟨(queryset_overrides_model matchFn "People" qsPeople (some [recBob]) none
      (some ["name", "email"]) "ann").1,
   ((queryset_overrides_model matchFn "People" qsPeople (some [recBob]) none
      (some ["name", "email"]) "ann").2 "name" ["email"] rfl).1,
   ((queryset_overrides_model matchFn "People" qsPeople (some [recBob]) none
      (some ["name", "email"]) "ann").2 "name" ["email"] rfl).2 qsPeople⟩

lemma run_categories_pairs {Record : Type} (m : String → String → Record → Bool)
    (q : String) (cats : List (CatEntry Record))
    (h : ∀ e ∈ cats, ∃ rs, get_results m (resolveEntry e) q = .ok rs) :
    ∃ pairs, run_categories m q cats = .ok pairs ∧ pairs.length = cats.length ∧
      ∀ i (hi : i < cats.length) (hp : i < pairs.length),
        (pairs.get ⟨i, hp⟩).1 = resolveEntry (cats.get ⟨i, hi⟩) ∧
        get_results m (resolveEntry (cats.get ⟨i, hi⟩)) q = .ok (pairs.get ⟨i, hp⟩).2 := by
  induction cats with
  | nil => exact ⟨[], rfl, rfl, fun i hi _ => absurd hi (Nat.not_lt_zero i)⟩
  | cons e rest ih =>
      obtain ⟨rs, hrs⟩ := h e (List.mem_cons_self e rest)
      obtain ⟨tail, htail, hlen, hidx⟩ := ih (fun x hx => h x (List.mem_cons_of_mem e hx))
      refine ⟨(resolveEntry e, rs) :: tail, ?_, by simp [hlen], ?_⟩
      · simp only [run_categories]
        rw [hrs, htail]
      · intro i hi hp
        cases i with
        | zero => exact ⟨rfl, hrs⟩
        | succ j =>
            have hj : j < rest.length := Nat.lt_of_succ_lt_succ hi
            have hjp : j < tail.length := Nat.lt_of_succ_lt_succ hp
            simpa using hidx j hj hjp

/-- C10: in the composite results view, a callable entry of the configured
category list is invoked with no arguments inside the view (per request) to
obtain the category instance, a non-callable entry is used directly, and
each stored pair consists of exactly that obtained instance together with
that instance's `get_results` output. -/
theorem callable_entries_resolved {Record : Type}
    (m : String → String → Record → Bool) (cats : List (CatEntry Record)) (d : CleanedData)
    (h : ∀ e ∈ cats, ∃ rs, get_results m (resolveEntry e) d.q = .ok rs) :
    (∀ f : Unit → SearchCategory Record, resolveEntry (CatEntry.factory f) = f ()) ∧
    (∀ c : SearchCategory Record, resolveEntry (CatEntry.direct c) = c) ∧
    ∃ pairs, results_view_body m cats (some d) = .ok (pairs, some d) ∧
      pairs.length = cats.length ∧
      ∀ i (hi : i < cats.length) (hp : i < pairs.length),
        (pairs.get ⟨i, hp⟩).1 = resolveEntry (cats.get ⟨i, hi⟩) ∧
        get_results m (resolveEntry (cats.get ⟨i, hi⟩)) d.q = .ok (pairs.get ⟨i, hp⟩).2 := by
  obtain ⟨pairs, hrun, hlen, hidx⟩ := run_categories_pairs m d.q cats h
  refine ⟨fun f => rfl, fun c => rfl, pairs, ?_, hlen, hidx⟩
  simp only [results_view_body]
  rw [hrun]

/-- Witness for C10 at a category list holding one callable (factory) entry
and one direct instance. -/
theorem callable_entries_resolved_witness :
    (∀ e ∈ [CatEntry.factory factPeople, CatEntry.direct catPhones],
      ∃ rs, get_results matchFn (resolveEntry e) dataAnn.q = .ok rs) ∧
    (∀ f : Unit → SearchCategory FieldMap, resolveEntry (CatEntry.factory f) = f ()) ∧
    (∀ c : SearchCategory FieldMap, resolveEntry (CatEntry.direct c) = c) ∧
    ∃ pairs,
      results_view_body matchFn [CatEntry.factory factPeople, CatEntry.direct catPhones]
        (some dataAnn) = .ok (pairs, some dataAnn) ∧
      pairs.length = [CatEntry.factory factPeople, CatEntry.direct catPhones].length ∧
      ∀ i (hi : i < [CatEntry.factory factPeople, CatEntry.direct catPhones].length)
        (hp : i < pairs.length),
        (pairs.get ⟨i, hp⟩).1 =
          resolveEntry ([CatEntry.factory factPeople, CatEntry.direct catPhones].get ⟨i, hi⟩) ∧
        get_results matchFn
            (resolveEntry ([CatEntry.factory factPeople, CatEntry.direct catPhones].get ⟨i, hi⟩))
            dataAnn.q =
          .ok (pairs.get ⟨i, hp⟩).2 := by
  have h : ∀ e ∈ [CatEntry.factory factPeople, CatEntry.direct catPhones],
      ∃ rs, get_results matchFn (resolveEntry e) dataAnn.q = .ok rs := by
    intro e he
    simp only [List.mem_cons, List.not_mem_nil, or_false] at he
    rcases he with rfl | rfl
    · exact ⟨[recAnn, recAnnMail], rfl⟩
    · exact ⟨[], rfl⟩
  exact ⟨h, callable_entries_resolved matchFn _ dataAnn h⟩

end DjangoSearchViews
